import Mathlib

/-!
Shallow embedding of the FTL ledger-maintenance subsystem: the garbage
collector (`src/gc.c`), the per-client rate limiter and disk-space monitor
(same file), and the history read endpoints (`src/api/history.c`).

Machine integers of the C code are modelled as `Int`/`Nat`; the C `%` and `/`
on signed integers are `Int.tmod`/`Int.tdiv` (truncation toward zero).  The
shared-memory arrays (queries, clients, domains, overTime slots, global
counters) are modelled as Lean lists; a NULL result from the `getQuery` /
`getClient` / `getDomain` accessors corresponds to `List.get?` returning
`none`.  Helpers whose bodies live outside the excerpted sources
(`change_clientcount`, `getOverTimeID`, `moveOverTimeMemory`,
`query_set_status`) are modelled from the specification; each carries a doc
comment saying so.
-/

namespace FTL

/-- Query status enum (`enum query_status` as enumerated by the spec's data
model and by the `switch` in `runGC`). -/
inductive QueryStatus
  | unknown
  | forwarded
  | retried
  | retriedDnssec
  | cache
  | cacheStale
  | gravity
  | denylist
  | regex
  | externalBlockedIp
  | externalBlockedNxra
  | externalBlockedNull
  | gravityCname
  | regexCname
  | denylistCname
  | dbbusy
  | specialDomain
  | inProgress
deriving DecidableEq, Repr

/-- The statuses grouped as "blocked" by the fall-through cases of the
`switch(query->status)` in `runGC` (gc.c lines 190-200). -/
def isBlocking : QueryStatus → Bool
  | .gravity => true
  | .denylist => true
  | .regex => true
  | .externalBlockedIp => true
  | .externalBlockedNxra => true
  | .externalBlockedNull => true
  | .gravityCname => true
  | .regexCname => true
  | .denylistCname => true
  | .dbbusy => true
  | .specialDomain => true
  | _ => false

/-- Position of a status in the global `counters->status` array (enum order). -/
def statusIdx : QueryStatus → Nat
  | .unknown => 0
  | .forwarded => 1
  | .retried => 2
  | .retriedDnssec => 3
  | .cache => 4
  | .cacheStale => 5
  | .gravity => 6
  | .denylist => 7
  | .regex => 8
  | .externalBlockedIp => 9
  | .externalBlockedNxra => 10
  | .externalBlockedNull => 11
  | .gravityCname => 12
  | .regexCname => 13
  | .denylistCname => 14
  | .dbbusy => 15
  | .specialDomain => 16
  | .inProgress => 17

/-- One ledger record (`queriesData`): the fields `runGC` reads. -/
structure queriesData where
  timestamp : Int
  clientID : Nat
  domainID : Nat
  status : QueryStatus
  reply : Nat
  qtype : Nat
deriving DecidableEq, Repr

/-- One client record (`clientsData`): the fields used by GC aggregate
reversal, the rate limiter and the history-by-client endpoint. -/
structure clientsData where
  ip : String
  name : String
  count : Int
  blockedcount : Int
  overTime : List Int
  rate_limit : Nat
  rate_limited : Bool
  aliasclient_id : Int
  flags_aliasclient : Bool
deriving DecidableEq, Repr

/-- One domain record (`domainsData`). -/
structure domainsData where
  count : Int
  blockedcount : Int
deriving DecidableEq, Repr

/-- One histogram slot (`overTime[i]`). -/
structure overTimeData where
  timestamp : Int
  total : Int
  blocked : Int
  cached : Int
deriving DecidableEq, Repr

/-- In-place update of one array cell, as the C code does with
`arr[i].field--`; out-of-range indices (NULL lookups) leave the array
unchanged. -/
def listModify (l : List α) (n : Nat) (f : α → α) : List α :=
  match l[n]? with
  | some a => l.set n (f a)
  | none => l

@[simp]
theorem length_listModify (l : List α) (n : Nat) (f : α → α) :
    (listModify l n f).length = l.length := by
  unfold listModify
  cases h : l[n]? <;> simp [h]

@[simp]
theorem getElem?_listModify_self (l : List α) (n : Nat) (f : α → α) :
    (listModify l n f)[n]? = (l[n]?).map f := by
  unfold listModify
  cases h : l[n]? with
  | none => simp [h]
  | some a =>
    have hn : n < l.length := (List.getElem?_eq_some.mp h).1
    simp [h, List.getElem?_set, hn]

@[simp]
theorem getElem?_listModify_ne (l : List α) (n m : Nat) (f : α → α)
    (h : m ≠ n) : (listModify l n f)[m]? = l[m]? := by
  unfold listModify
  cases hg : l[n]? with
  | none => rfl
  | some a =>
    rw [List.getElem?_set_ne (fun hc => h hc.symm)]

theorem listModify_of_getElem?_none (l : List α) (n : Nat) (f : α → α)
    (h : l[n]? = none) : listModify l n f = l := by
  unfold listModify
  rw [h]

/-- Modelled from the spec: `change_clientcount` (datastructure.c, not among
the excerpted sources) adjusts a client's total counter, blocked counter and,
when a valid overTime index is passed (the GC call sites pass `-1` when no
slot should change), the per-bucket overTime count. -/
def change_clientcount (c : clientsData) (total blocked : Int)
    (overTimeIdx : Int) (overTimeMod : Int) : clientsData :=
  { c with
    count := c.count + total
    blockedcount := c.blockedcount + blocked
    overTime :=
      if 0 ≤ overTimeIdx then
        listModify c.overTime overTimeIdx.toNat (fun k => k + overTimeMod)
      else c.overTime }

/-- Timestamp of `overTime[0]`, the base of the histogram window. -/
def overTimeBase (ot : List overTimeData) : Int :=
  match ot with
  | [] => 0
  | b :: _ => b.timestamp

/-- Modelled from the spec: `getOverTimeID` (overTime.c, not among the
excerpted sources) integer-divides the timestamp by the bucket width, offset
by the histogram's base slot. -/
def getOverTimeID (base width ts : Int) : Nat :=
  (Int.tdiv (ts - base) width).toNat

/-- Modelled from the spec: `moveOverTimeMemory` (overTime.c, not among the
excerpted sources) shifts the histogram window so that every bucket whose
timestamp falls below the new minimum is dropped from the addressable
window. -/
def moveOverTimeMemory (mintime : Int) (ot : List overTimeData) :
    List overTimeData :=
  ot.filter (fun b => decide (mintime ≤ b.timestamp))

/-- Modelled from the spec: `query_set_status` (datastructure.c, not among
the excerpted sources) moves one unit of the global per-status counters from
the old status to the new one when they differ. -/
def query_set_status_counters (status : List Int)
    (oldStatus newStatus : QueryStatus) : List Int :=
  if oldStatus = newStatus then status
  else
    listModify (listModify status (statusIdx oldStatus) (fun k => k - 1))
      (statusIdx newStatus) (fun k => k + 1)

/-- The shared-memory store as visible to `runGC`. -/
structure GCState where
  queries : List queriesData
  clients : List clientsData
  domains : List domainsData
  overTime : List overTimeData
  counters_reply : List Int
  counters_querytype : List Int
  counters_status : List Int
deriving DecidableEq, Repr

/-- Configuration and compile-time constants read by `runGC`.  The values of
the `GCdelay`/`GCinterval` macros and of the overTime bucket width are not
among the excerpted sources, so they stay symbolic here. -/
structure GCConfig where
  GCdelay : Int
  GCinterval : Int
  maxHistory : Int
  bucketWidth : Int
deriving DecidableEq, Repr

/-- Retention horizon of a GC pass (gc.c lines 133-138):
`mintime = (now - GCdelay) - config.database.maxHistory`, then
`mintime -= mintime % GCinterval` (C `%` is truncated remainder). -/
def mintimeOf (cfg : GCConfig) (now : Int) : Int :=
  let m := now - cfg.GCdelay - cfg.maxHistory
  m - Int.tmod m cfg.GCinterval

/-- Recorded GC run timestamp (gc.c line 127):
`*lastGCrun = now - GCdelay - (now - GCdelay) % GCinterval`. -/
def lastGCrunOf (cfg : GCConfig) (now : Int) : Int :=
  now - cfg.GCdelay - Int.tmod (now - cfg.GCdelay) cfg.GCinterval

/-- Eviction test of the scan loop: the loop keeps going while
`query->timestamp <= mintime` (it breaks on `timestamp > mintime`). -/
def tooOld (mintime : Int) (q : queriesData) : Bool :=
  decide (q.timestamp ≤ mintime)

/-- Histogram slot index used for one evicted record (gc.c line 162). -/
def evictTimeIdx (cfg : GCConfig) (st : GCState) (q : queriesData) : Nat :=
  getOverTimeID (overTimeBase st.overTime) cfg.bucketWidth q.timestamp

/-- Aggregate reversal for one evicted record: the body of the scan loop in
`runGC` (gc.c lines 160-229).  Lookups that return NULL skip only their own
decrement (`listModify` is the identity out of range). -/
def evictQuery (cfg : GCConfig) (st : GCState) (q : queriesData) : GCState :=
  let timeidx := evictTimeIdx cfg st q
  let ot1 := listModify st.overTime timeidx
    (fun b => { b with total := b.total - 1 })
  let cl1 := listModify st.clients q.clientID
    (fun c => change_clientcount c (-1) 0 (Int.ofNat timeidx) (-1))
  let dm1 := listModify st.domains q.domainID
    (fun d => { d with count := d.count - 1 })
  let ot2 := if isBlocking q.status then
      listModify ot1 timeidx (fun b => { b with blocked := b.blocked - 1 })
    else ot1
  let dm2 := if isBlocking q.status then
      listModify dm1 q.domainID
        (fun d => { d with blockedcount := d.blockedcount - 1 })
    else dm1
  let cl2 := if isBlocking q.status then
      listModify cl1 q.clientID (fun c => change_clientcount c 0 (-1) (-1) 0)
    else cl1
  { st with
    clients := cl2
    domains := dm2
    overTime := ot2
    counters_reply := listModify st.counters_reply q.reply (fun k => k - 1)
    counters_querytype :=
      listModify st.counters_querytype q.qtype (fun k => k - 1)
    counters_status :=
      query_set_status_counters
        (if q.status = QueryStatus.unknown then st.counters_status
         else listModify st.counters_status (statusIdx QueryStatus.unknown)
           (fun k => k - 1))
        q.status QueryStatus.unknown }

/-- Result of one `runGC` call: the new store, the number of evicted records
and the recorded run timestamp. -/
structure GCResult where
  state : GCState
  removed : Nat
  lastGCrun : Int
deriving DecidableEq, Repr

/-- One GC pass (`runGC`, gc.c lines 123-277): compute the retention horizon,
scan the ledger front-to-back while records are old enough, reverse each
record's aggregate contributions, compact the survivors to the front, shift
the histogram window, and record the run timestamp. -/
def runGC (cfg : GCConfig) (now : Int) (st : GCState) : GCResult :=
  let mintime := mintimeOf cfg now
  let evicted := st.queries.takeWhile (tooOld mintime)
  let rest := st.queries.dropWhile (tooOld mintime)
  let st1 := evicted.foldl (evictQuery cfg) st
  let st2 := { st1 with queries := rest }
  let st3 := { st2 with overTime := moveOverTimeMemory mintime st2.overTime }
  { state := st3, removed := evicted.length, lastGCrun := lastGCrunOf cfg now }

/-- Per-client step of `reset_rate_limiting` (gc.c lines 45-74): when the
client is currently rate-limited, keep limiting only if it made strictly more
queries than allowed; then unconditionally zero the window counter. -/
def reset_rate_limiting_client (threshold : Nat) (c : clientsData) :
    clientsData :=
  let c1 :=
    if c.rate_limited then
      if threshold < c.rate_limit then c else { c with rate_limited := false }
    else c
  { c1 with rate_limit := 0 }

/-- `reset_rate_limiting` applied to the whole client table. -/
def reset_rate_limiting (threshold : Nat) (clients : List clientsData) :
    List clientsData :=
  clients.map (reset_rate_limiting_client threshold)

/-- `check_space` (gc.c lines 84-102) with the sampled usage percentage as a
parameter: returns whether a shortage notification is raised and the value
returned to the caller (stored as the next `LastUsage`).  A configured
threshold of `0` disables the check before any sampling happens. -/
def check_space (threshold perc lastUsage : Nat) : Bool × Nat :=
  if threshold = 0 then (false, 0)
  else (decide (threshold < perc) && decide (lastUsage < perc), perc)

/-- Slot test of the first loop of `api_history` (history.c lines 35-44): a
slot qualifies as the start of the output when it is non-empty and not older
than `overTime[0]`. -/
def firstSlotTest (mintime : Int) (b : overTimeData) : Bool :=
  (decide (0 < b.total) || decide (0 < b.blocked)) && decide (mintime ≤ b.timestamp)

/-- Upper bound of the emitted slot range (history.c lines 47-54): the first
slot whose timestamp is not below `now`; when no such slot exists the bound
stays at the end of the array (`List.findIdx` returns the length then, just
as the C code leaves `until = OVERTIME_SLOTS`). -/
def untilSlot (ot : List overTimeData) (now : Int) : Nat :=
  ot.findIdx (fun b => decide (now ≤ b.timestamp))

/-- `api_history` (history.c lines 26-82): the sequence of overTime slots
emitted in the `history` array.  When no non-empty slot exists the endpoint
sends a single empty placeholder, modelled as the empty sequence of
buckets. -/
def api_history (ot : List overTimeData) (now : Int) : List overTimeData :=
  match ot.findIdx? (firstSlotTest (overTimeBase ot)) with
  | none => []
  | some fromIdx => (ot.drop fromIdx).take (untilSlot ot now - fromIdx)

/-- Skip table of `api_history_clients` (history.c lines 128-152): it is
computed only when `API_EXCLUDE_CLIENTS` is configured (`excludeclients`
non-NULL); a client is skipped when its IP or name is in the exclusion list,
or when it is managed by an alias client without being one itself. -/
def skipclient (exclude : Option (List String)) (clients : List clientsData)
    (i : Nat) : Bool :=
  match exclude with
  | none => false
  | some ex =>
    match clients[i]? with
    | none => false
    | some c =>
      ex.contains c.ip || ex.contains c.name ||
        (!c.flags_aliasclient && decide (-1 < c.aliasclient_id))

/-- Indices of the clients that contribute a column to the per-bucket series
of `api_history_clients` (history.c lines 163-178): not skipped, valid, and
not managed by an alias client (`aliasclient_id >= 0` is skipped). -/
def seriesClientIDs (exclude : Option (List String))
    (clients : List clientsData) : List Nat :=
  (List.range clients.length).filter
    (fun i =>
      !skipclient exclude clients i &&
        match clients[i]? with
        | none => false
        | some c => decide (c.aliasclient_id < 0))

/-- Indices of the clients listed in the client directory of
`api_history_clients` (history.c lines 187-204): not skipped and valid; note
the absence of the alias test of the series loop. -/
def directoryClientIDs (exclude : Option (List String))
    (clients : List clientsData) : List Nat :=
  (List.range clients.length).filter
    (fun i => !skipclient exclude clients i && clients[i]?.isSome)

/-- Rounding characterization shared by the horizon and run-timestamp
computations: for `0 ≤ m` and `0 < g`, the value `m - m tmod g` is the
largest multiple of `g` not exceeding `m`. -/
theorem sub_tmod_round_down (m g : Int) (hpos : 0 < g) (hnn : 0 ≤ m) :
    g ∣ m - Int.tmod m g ∧ m - Int.tmod m g ≤ m ∧ m - (m - Int.tmod m g) < g := by
  have ht : Int.tmod m g = m % g := Int.tmod_eq_emod hnn (le_of_lt hpos)
  refine ⟨⟨m / g, ?_⟩, ?_, ?_⟩
  · rw [ht, Int.emod_def]
    ring
  · have := Int.emod_nonneg m (ne_of_gt hpos)
    rw [ht]
    linarith
  · have := Int.emod_lt_of_pos m hpos
    rw [ht]
    linarith

/-- C4: the retention horizon of a GC pass equals
`now - GCdelay - maxHistory` rounded down to a multiple of the histogram
bucket width.  In gc.c the alignment divisor is `GCinterval`; the bucket
width equals it by hypothesis `hbw` (the macro values are not among the
excerpted sources, and gc.c's own comment states that this alignment "will
also align with the oldest overTime interval"). -/
theorem gc_horizon_bucket_aligned (cfg : GCConfig) (now : Int)
    (hbw : cfg.bucketWidth = cfg.GCinterval) (hpos : 0 < cfg.GCinterval)
    (hnn : 0 ≤ now - cfg.GCdelay - cfg.maxHistory) :
    cfg.bucketWidth ∣ mintimeOf cfg now ∧
    mintimeOf cfg now ≤ now - cfg.GCdelay - cfg.maxHistory ∧
    now - cfg.GCdelay - cfg.maxHistory - mintimeOf cfg now < cfg.bucketWidth := by
  rw [hbw]
  exact sub_tmod_round_down (now - cfg.GCdelay - cfg.maxHistory)
    cfg.GCinterval hpos hnn

/-- Witness for C4 at a concrete configuration and time. -/
theorem gc_horizon_bucket_aligned_witness :
    (⟨60, 600, 3600, 600⟩ : GCConfig).bucketWidth ∣
        mintimeOf ⟨60, 600, 3600, 600⟩ 100000 ∧
    mintimeOf ⟨60, 600, 3600, 600⟩ 100000 ≤ 100000 - 60 - 3600 ∧
    100000 - 60 - 3600 - mintimeOf ⟨60, 600, 3600, 600⟩ 100000 <
        (⟨60, 600, 3600, 600⟩ : GCConfig).bucketWidth :=
  gc_horizon_bucket_aligned ⟨60, 600, 3600, 600⟩ 100000 rfl (by decide)
    (by decide)

/-- C5 counterexample: at `now = 650` with `GCdelay = 60` and
`GCinterval = 600`, the recorded run timestamp is `0`, not
`650 - (650 mod 600) = 600`: the recorded value does depend on the grace
delay. -/
theorem gc_lastrun_claim_counterexample :
    lastGCrunOf ⟨60, 600, 3600, 600⟩ 650 ≠ 650 - 650 % 600 := by decide

/-- C5 amended: the recorded last-run timestamp equals
`(now - GCdelay) - ((now - GCdelay) mod GCinterval)`: the largest multiple
of the GC interval not exceeding the grace-delayed clock `now - GCdelay`.
The run phase therefore does shift with the grace delay. -/
theorem gc_lastrun_aligned (cfg : GCConfig) (now : Int)
    (hpos : 0 < cfg.GCinterval) (hnn : 0 ≤ now - cfg.GCdelay) :
    cfg.GCinterval ∣ lastGCrunOf cfg now ∧
    lastGCrunOf cfg now ≤ now - cfg.GCdelay ∧
    now - cfg.GCdelay - lastGCrunOf cfg now < cfg.GCinterval :=
  sub_tmod_round_down (now - cfg.GCdelay) cfg.GCinterval hpos hnn

/-- Witness for the amended C5 at a concrete configuration and time. -/
theorem gc_lastrun_aligned_witness :
    (⟨60, 600, 3600, 600⟩ : GCConfig).GCinterval ∣
        lastGCrunOf ⟨60, 600, 3600, 600⟩ 650 ∧
    lastGCrunOf ⟨60, 600, 3600, 600⟩ 650 ≤ 650 - 60 ∧
    650 - 60 - lastGCrunOf ⟨60, 600, 3600, 600⟩ 650 <
        (⟨60, 600, 3600, 600⟩ : GCConfig).GCinterval :=
  gc_lastrun_aligned ⟨60, 600, 3600, 600⟩ 650 (by decide) (by decide)

/-- C9 counterexample: with the disk-usage threshold configured to `0`,
`check_space` returns before sampling and never notifies, although the
sampled usage (here 5%) exceeds the threshold and exceeds the previous
sample: the claimed equivalence fails for that configuration. -/
theorem check_space_iff_counterexample :
    ¬(((check_space 0 5 0).1 = true) ↔ (0 < 5 ∧ 0 < 5)) := by decide

/-- C9 amended: when the disk check is enabled (nonzero configured
threshold), a shortage notification is raised iff the sampled usage exceeds
the threshold and strictly exceeds the previous sample; in particular a
stable plateau never notifies.  A threshold of `0` disables the check. -/
theorem check_space_notification_iff (threshold perc lastUsage : Nat)
    (h : 0 < threshold) :
    ((check_space threshold perc lastUsage).1 = true ↔
      threshold < perc ∧ lastUsage < perc) ∧
    (perc = lastUsage → (check_space threshold perc lastUsage).1 = false) := by
  unfold check_space
  rw [if_neg (by omega)]
  constructor
  · simp
  · intro he
    simp [he]

/-- Witness for the amended C9: usage 50% against threshold 10% and previous
sample 40% notifies; the plateau clause is vacuous there. -/
theorem check_space_notification_iff_witness :
    ((check_space 10 50 40).1 = true ↔ 10 < 50 ∧ 40 < 50) ∧
    (50 = 40 → (check_space 10 50 40).1 = false) :=
  check_space_notification_iff 10 50 40 (by decide)

/-- C6: after a rate-limiter decay pass every client's window counter is
zero; a client that entered the pass rate-limited stays rate-limited exactly
when its accumulated count strictly exceeds the configured threshold; and a
client whose counter is zero at the pass (no appends during the interval)
ends with counter zero and `rate_limited = false`. -/
theorem rate_limiter_reset (threshold : Nat) (clients : List clientsData)
    (i : Nat) :
    (((reset_rate_limiting threshold clients)[i]?).map
        clientsData.rate_limit = clients[i]?.map (fun _ => 0)) ∧
    (∀ c, clients[i]? = some c → c.rate_limited = true →
        ((reset_rate_limiting threshold clients)[i]?).map
            clientsData.rate_limited = some (decide (threshold < c.rate_limit))) ∧
    (∀ c, clients[i]? = some c → c.rate_limit = 0 →
        (reset_rate_limiting threshold clients)[i]? =
          some { c with rate_limit := 0, rate_limited := false }) := by
  unfold reset_rate_limiting
  refine ⟨?_, ?_, ?_⟩
  · rw [List.getElem?_map]
    cases clients[i]? <;> simp [reset_rate_limiting_client]
  · intro c hc hl
    rw [List.getElem?_map, hc]
    by_cases hthr : threshold < c.rate_limit <;>
      simp [reset_rate_limiting_client, hl, hthr]
  · intro c hc h0
    rw [List.getElem?_map, hc]
    have hthr : ¬ threshold < c.rate_limit := by omega
    by_cases hl : c.rate_limited <;>
      · cases c
        simp_all [reset_rate_limiting_client]

/-- Witness for C6: a previously rate-limited client with a zero counter is
cleared and reset. -/
theorem rate_limiter_reset_witness :
    (reset_rate_limiting 5
        [{ ip := "10.0.0.1", name := "w", count := 0, blockedcount := 0,
           overTime := [0], rate_limit := 0, rate_limited := true,
           aliasclient_id := -1, flags_aliasclient := false }])[0]? =
      some { ip := "10.0.0.1", name := "w", count := 0, blockedcount := 0,
             overTime := [0], rate_limit := 0, rate_limited := false,
             aliasclient_id := -1, flags_aliasclient := false } :=
  (rate_limiter_reset 5
      [{ ip := "10.0.0.1", name := "w", count := 0, blockedcount := 0,
         overTime := [0], rate_limit := 0, rate_limited := true,
         aliasclient_id := -1, flags_aliasclient := false }] 0).2.2
    { ip := "10.0.0.1", name := "w", count := 0, blockedcount := 0,
      overTime := [0], rate_limit := 0, rate_limited := true,
      aliasclient_id := -1, flags_aliasclient := false } rfl rfl

/-- C10: the plain history endpoint never reports a slot whose timestamp has
already been reached: every bucket emitted by `api_history` has a timestamp
strictly below the current time, because the emitted range stops right
before the first slot with `timestamp >= now`. -/
theorem api_history_excludes_current_bucket (ot : List overTimeData)
    (now : Int) : ∀ b ∈ api_history ot now, b.timestamp < now := by
  intro b hb
  unfold api_history at hb
  cases hfi : ot.findIdx? (firstSlotTest (overTimeBase ot)) with
  | none =>
    rw [hfi] at hb
    simp at hb
  | some fromIdx =>
    rw [hfi] at hb
    obtain ⟨k, hk, hbk⟩ := List.mem_iff_getElem.mp hb
    have hlen : k < untilSlot ot now - fromIdx ∧ k < ot.length - fromIdx := by
      simpa using hk
    have hlt : fromIdx + k < ot.length := by omega
    have hfound : fromIdx + k < ot.findIdx (fun b => decide (now ≤ b.timestamp)) := by
      have : fromIdx + k < untilSlot ot now := by omega
      simpa [untilSlot] using this
    have hfail := List.not_of_lt_findIdx hfound
    have hbk2 : b = ot[fromIdx + k] := by
      rw [← hbk, List.getElem_take, List.getElem_drop]
    have hts : decide (now ≤ b.timestamp) = false := by
      rw [hbk2]
      exact hfail
    simpa using hts

/-- Witness for C10: with one finished slot and one slot at the current
time, only the finished slot is emitted and its timestamp precedes `now`. -/
theorem api_history_excludes_current_bucket_witness :
    (⟨0, 1, 0, 0⟩ : overTimeData) ∈
        api_history [⟨0, 1, 0, 0⟩, ⟨10, 2, 0, 0⟩] 10 ∧
    (⟨0, 1, 0, 0⟩ : overTimeData).timestamp < 10 :=
  ⟨by decide,
    api_history_excludes_current_bucket [⟨0, 1, 0, 0⟩, ⟨10, 2, 0, 0⟩] 10
      ⟨0, 1, 0, 0⟩ (by decide)⟩

/-- C2: reversing one evicted record decrements the matching domain's count,
the matching histogram bucket's total and the owning client's per-bucket
count by one; for a blocking status it additionally decrements the domain's
blocked count, the bucket's blocked count and the client's blocked counter,
while for a non-blocking status those three are unchanged.  (Out-of-range
identities answer `none` on both sides.) -/
theorem gc_evict_record_decrements (cfg : GCConfig) (st : GCState)
    (q : queriesData) :
    (((evictQuery cfg st q).domains[q.domainID]?).map domainsData.count =
        (st.domains[q.domainID]?).map (fun d => d.count - 1)) ∧
    (((evictQuery cfg st q).overTime[evictTimeIdx cfg st q]?).map
        overTimeData.total =
      (st.overTime[evictTimeIdx cfg st q]?).map (fun b => b.total - 1)) ∧
    (((evictQuery cfg st q).clients[q.clientID]?).map
        (fun c => c.overTime[evictTimeIdx cfg st q]?) =
      (st.clients[q.clientID]?).map
        (fun c => (c.overTime[evictTimeIdx cfg st q]?).map
          (fun k => k - 1))) ∧
    (isBlocking q.status = true →
      (((evictQuery cfg st q).domains[q.domainID]?).map
          domainsData.blockedcount =
        (st.domains[q.domainID]?).map (fun d => d.blockedcount - 1)) ∧
      (((evictQuery cfg st q).overTime[evictTimeIdx cfg st q]?).map
          overTimeData.blocked =
        (st.overTime[evictTimeIdx cfg st q]?).map
          (fun b => b.blocked - 1)) ∧
      (((evictQuery cfg st q).clients[q.clientID]?).map
          clientsData.blockedcount =
        (st.clients[q.clientID]?).map (fun c => c.blockedcount - 1))) ∧
    (isBlocking q.status = false →
      (((evictQuery cfg st q).domains[q.domainID]?).map
          domainsData.blockedcount =
        (st.domains[q.domainID]?).map domainsData.blockedcount) ∧
      (((evictQuery cfg st q).overTime[evictTimeIdx cfg st q]?).map
          overTimeData.blocked =
        (st.overTime[evictTimeIdx cfg st q]?).map overTimeData.blocked) ∧
      (((evictQuery cfg st q).clients[q.clientID]?).map
          clientsData.blockedcount =
        (st.clients[q.clientID]?).map clientsData.blockedcount)) := by
  cases hb : isBlocking q.status
  case false =>
    refine ⟨?_, ?_, ?_, ?_, ?_⟩
    · simp [evictQuery, hb]
      cases hd : st.domains[q.domainID]? <;> simp
    · simp [evictQuery, hb]
      cases ht : st.overTime[evictTimeIdx cfg st q]? <;> simp
    · simp [evictQuery, hb, change_clientcount]
      cases hc : st.clients[q.clientID]? <;> simp [sub_eq_add_neg]
    · intro hh
      exact Bool.noConfusion hh
    · intro hnb
      refine ⟨?_, ?_, ?_⟩
      · simp [evictQuery, hb]
        cases hd : st.domains[q.domainID]? <;> simp
      · simp [evictQuery, hb]
        cases ht : st.overTime[evictTimeIdx cfg st q]? <;> simp
      · simp [evictQuery, hb, change_clientcount]
        cases hc : st.clients[q.clientID]? <;> simp
  case true =>
    refine ⟨?_, ?_, ?_, ?_, ?_⟩
    · simp [evictQuery, hb]
      cases hd : st.domains[q.domainID]? <;> simp
    · simp [evictQuery, hb]
      cases ht : st.overTime[evictTimeIdx cfg st q]? <;> simp
    · simp [evictQuery, hb, change_clientcount]
      cases hc : st.clients[q.clientID]? <;> simp [sub_eq_add_neg]
    · intro hbt
      refine ⟨?_, ?_, ?_⟩
      · simp [evictQuery, hb]
        cases hd : st.domains[q.domainID]? <;> simp
      · simp [evictQuery, hb]
        cases ht : st.overTime[evictTimeIdx cfg st q]? <;> simp
      · simp [evictQuery, hb, change_clientcount]
        cases hc : st.clients[q.clientID]? <;> simp [sub_eq_add_neg]
    · intro hh
      exact Bool.noConfusion hh

/-- C8: a NULL client or domain lookup during eviction only omits that
identity's own decrements: the array of the missing identity is left
untouched, every other decrement for the record is still applied, and the
scan is never aborted (the pass still evicts every expired record). -/
theorem gc_missing_identity_skips (cfg : GCConfig) (st : GCState)
    (q : queriesData) :
    (st.clients[q.clientID]? = none →
      (evictQuery cfg st q).clients = st.clients) ∧
    (st.domains[q.domainID]? = none →
      (evictQuery cfg st q).domains = st.domains) ∧
    (((evictQuery cfg st q).overTime[evictTimeIdx cfg st q]?).map
        overTimeData.total =
      (st.overTime[evictTimeIdx cfg st q]?).map (fun b => b.total - 1)) ∧
    (((evictQuery cfg st q).domains[q.domainID]?).map domainsData.count =
      (st.domains[q.domainID]?).map (fun d => d.count - 1)) ∧
    (((evictQuery cfg st q).clients[q.clientID]?).map clientsData.count =
      (st.clients[q.clientID]?).map (fun c => c.count - 1)) ∧
    (∀ now, (runGC cfg now st).removed =
      (st.queries.takeWhile (tooOld (mintimeOf cfg now))).length) := by
  refine ⟨?_, ?_, ?_, ?_, ?_, fun now => rfl⟩
  · intro hnone
    cases hb : isBlocking q.status <;>
      simp [evictQuery, hb, listModify_of_getElem?_none _ _ _ hnone]
  · intro hnone
    cases hb : isBlocking q.status <;>
      simp [evictQuery, hb, listModify_of_getElem?_none _ _ _ hnone]
  · cases hb : isBlocking q.status <;>
      · simp [evictQuery, hb]
        cases ht : st.overTime[evictTimeIdx cfg st q]? <;> simp
  · cases hb : isBlocking q.status <;>
      · simp [evictQuery, hb]
        cases hd : st.domains[q.domainID]? <;> simp
  · cases hb : isBlocking q.status <;>
      · simp [evictQuery, hb, change_clientcount]
        cases hc : st.clients[q.clientID]? <;> simp [sub_eq_add_neg]

/-- Store and record used by the C8 witness: empty identity tables, one
histogram slot. -/
def stMissing : GCState :=
  { queries := [], clients := [], domains := [],
    overTime := [⟨0, 3, 1, 1⟩], counters_reply := [],
    counters_querytype := [], counters_status := [] }

/-- Record evicted by the C8 witness. -/
def qMissing : queriesData :=
  { timestamp := 5, clientID := 0, domainID := 0,
    status := QueryStatus.gravity, reply := 0, qtype := 0 }

/-- Witness for C8 on a store with empty identity tables: both tables are
untouched while the histogram bucket is still decremented. -/
theorem gc_missing_identity_skips_witness :
    (evictQuery ⟨0, 10, 0, 10⟩ stMissing qMissing).clients = [] ∧
    ((evictQuery ⟨0, 10, 0, 10⟩ stMissing
        qMissing).overTime[evictTimeIdx ⟨0, 10, 0, 10⟩ stMissing qMissing]?).map
      overTimeData.total = some 2 :=
  ⟨(gc_missing_identity_skips ⟨0, 10, 0, 10⟩ stMissing qMissing).1 rfl,
    ((gc_missing_identity_skips ⟨0, 10, 0, 10⟩ stMissing
        qMissing).2.2.1).trans (by decide)⟩

/-- Store used by the C2 witness: one client, one domain, one histogram
slot. -/
def stOneEach : GCState :=
  { queries := [],
    clients := [{ ip := "10.0.0.9", name := "c", count := 2,
                  blockedcount := 1, overTime := [2], rate_limit := 0,
                  rate_limited := false, aliasclient_id := -1,
                  flags_aliasclient := false }],
    domains := [{ count := 2, blockedcount := 1 }],
    overTime := [⟨0, 2, 1, 0⟩],
    counters_reply := [2], counters_querytype := [2],
    counters_status := [0, 0, 0, 0, 0, 0, 1, 0, 0, 0, 0, 0, 0, 0, 0, 0, 0, 0] }

/-- Blocked record evicted by the C2 witness. -/
def qBlocked : queriesData :=
  { timestamp := 5, clientID := 0, domainID := 0,
    status := QueryStatus.gravity, reply := 0, qtype := 0 }

/-- Witness for C2 on a concrete store and a blocked record: domain count,
bucket total, client per-bucket count and the three blocked counters all go
down by one. -/
theorem gc_evict_record_decrements_witness :
    ((evictQuery ⟨0, 10, 0, 10⟩ stOneEach qBlocked).domains[0]?).map
        domainsData.count = some 1 ∧
    ((evictQuery ⟨0, 10, 0, 10⟩ stOneEach
        qBlocked).overTime[evictTimeIdx ⟨0, 10, 0, 10⟩ stOneEach qBlocked]?).map
        overTimeData.blocked = some 0 :=
  ⟨((gc_evict_record_decrements ⟨0, 10, 0, 10⟩ stOneEach qBlocked).1).trans
      (by decide),
    ((((gc_evict_record_decrements ⟨0, 10, 0, 10⟩ stOneEach
        qBlocked).2.2.2.1 (by decide)).2.1)).trans (by decide)⟩

/-- Dropping as many elements as the matching front segment recovers
`dropWhile`. -/
theorem drop_length_takeWhile (p : α → Bool) :
    ∀ l : List α, l.drop (l.takeWhile p).length = l.dropWhile p
  | [] => rfl
  | a :: l => by
    cases h : p a <;>
      simp [List.takeWhile_cons, List.dropWhile_cons, h,
        drop_length_takeWhile p l]

/-- Taking as many elements as the matching front segment recovers
`takeWhile`. -/
theorem take_length_takeWhile (p : α → Bool) :
    ∀ l : List α, l.take (l.takeWhile p).length = l.takeWhile p
  | [] => rfl
  | a :: l => by
    cases h : p a <;>
      simp [List.takeWhile_cons, h, take_length_takeWhile p l]

/-- On a ledger sorted by timestamp, the front segment of expired records is
all of them. -/
theorem sorted_takeWhile_eq_filter (m : Int) :
    ∀ l : List queriesData,
      List.Pairwise (fun a b => a.timestamp ≤ b.timestamp) l →
        l.takeWhile (tooOld m) = l.filter (tooOld m)
  | [], _ => rfl
  | q :: l, h => by
    rcases List.pairwise_cons.mp h with ⟨hq, hl⟩
    cases hqm : tooOld m q with
    | true =>
      simp [List.takeWhile_cons, List.filter_cons, hqm,
        sorted_takeWhile_eq_filter m l hl]
    | false =>
      have hall : ∀ x ∈ l, ¬ tooOld m x = true := by
        intro x hx
        have hle := hq x hx
        simp [tooOld] at hqm ⊢
        omega
      simp [List.takeWhile_cons, List.filter_cons, hqm]
      intro a ha
      simpa using hall a ha

/-- On a ledger sorted by timestamp, every record surviving `dropWhile` is
strictly newer than the horizon. -/
theorem sorted_dropWhile_all_newer (m : Int) :
    ∀ l : List queriesData,
      List.Pairwise (fun a b => a.timestamp ≤ b.timestamp) l →
        ∀ q ∈ l.dropWhile (tooOld m), m < q.timestamp
  | [], _ => by simp
  | x :: l, h => by
    rcases List.pairwise_cons.mp h with ⟨hx, hl⟩
    cases hxm : tooOld m x with
    | true =>
      simp [List.dropWhile_cons, hxm]
      exact sorted_dropWhile_all_newer m l hl
    | false =>
      simp [List.dropWhile_cons, hxm]
      simp [tooOld] at hxm
      constructor
      · exact hxm
      · intro q hq
        have := hx q hq
        omega

/-- C1: on a timestamp-sorted ledger, one GC pass removes precisely the
first `removed` records, those are exactly the records whose timestamp is
at most the pass's retention horizon, and every record left in the ledger
is strictly newer than that horizon. -/
theorem gc_evicts_exactly_expired (cfg : GCConfig) (now : Int) (st : GCState)
    (hs : List.Pairwise (fun a b => a.timestamp ≤ b.timestamp) st.queries) :
    (runGC cfg now st).state.queries =
      st.queries.drop ((runGC cfg now st).removed) ∧
    st.queries.take ((runGC cfg now st).removed) =
      st.queries.filter (tooOld (mintimeOf cfg now)) ∧
    ∀ q ∈ (runGC cfg now st).state.queries,
      mintimeOf cfg now < q.timestamp := by
  have hq : (runGC cfg now st).state.queries =
      st.queries.dropWhile (tooOld (mintimeOf cfg now)) := rfl
  have hr : (runGC cfg now st).removed =
      (st.queries.takeWhile (tooOld (mintimeOf cfg now))).length := rfl
  refine ⟨?_, ?_, ?_⟩
  · rw [hq, hr, drop_length_takeWhile]
  · rw [hr, take_length_takeWhile]
    exact sorted_takeWhile_eq_filter (mintimeOf cfg now) st.queries hs
  · rw [hq]
    exact sorted_dropWhile_all_newer (mintimeOf cfg now) st.queries hs

/-- Sorted two-record ledger used by the C1 witness. -/
def stSorted : GCState :=
  { queries :=
      [{ timestamp := 5, clientID := 0, domainID := 0,
         status := QueryStatus.forwarded, reply := 0, qtype := 0 },
       { timestamp := 20, clientID := 0, domainID := 0,
         status := QueryStatus.cache, reply := 0, qtype := 0 }],
    clients := [], domains := [], overTime := [], counters_reply := [],
    counters_querytype := [], counters_status := [] }

/-- Witness for C1 with horizon 10: the first record is evicted, the second
survives. -/
theorem gc_evicts_exactly_expired_witness :
    (runGC ⟨0, 10, 0, 10⟩ 10 stSorted).state.queries =
      stSorted.queries.drop ((runGC ⟨0, 10, 0, 10⟩ 10 stSorted).removed) ∧
    stSorted.queries.take ((runGC ⟨0, 10, 0, 10⟩ 10 stSorted).removed) =
      stSorted.queries.filter (tooOld (mintimeOf ⟨0, 10, 0, 10⟩ 10)) ∧
    ∀ q ∈ (runGC ⟨0, 10, 0, 10⟩ 10 stSorted).state.queries,
      mintimeOf ⟨0, 10, 0, 10⟩ 10 < q.timestamp :=
  gc_evicts_exactly_expired ⟨0, 10, 0, 10⟩ 10 stSorted (by decide)

/-- The element at the head of `dropWhile` fails the test, so a second
`takeWhile` finds nothing. -/
theorem takeWhile_dropWhile_eq_nil (p : α → Bool) (l : List α) :
    List.takeWhile p (List.dropWhile p l) = [] := by
  cases h : List.dropWhile p l with
  | nil => rfl
  | cons a as =>
    have hh := List.head_dropWhile_not p l (by simp [h])
    simp only [h, List.head_cons] at hh
    simp [List.takeWhile, hh]

/-- `dropWhile` is idempotent. -/
theorem dropWhile_dropWhile_self (p : α → Bool) (l : List α) :
    List.dropWhile p (List.dropWhile p l) = List.dropWhile p l := by
  cases h : List.dropWhile p l with
  | nil => rfl
  | cons a as =>
    have hh := List.head_dropWhile_not p l (by simp [h])
    simp only [h, List.head_cons] at hh
    simp [List.dropWhile, hh]

/-- Shifting the histogram window twice to the same horizon is the same as
shifting once. -/
theorem moveOverTimeMemory_idem (m : Int) (ot : List overTimeData) :
    moveOverTimeMemory m (moveOverTimeMemory m ot) = moveOverTimeMemory m ot := by
  unfold moveOverTimeMemory
  rw [List.filter_filter]
  simp

/-- A GC pass that finds nothing expired and an already-shifted histogram is
the identity. -/
theorem runGC_no_work (cfg : GCConfig) (now : Int) (t : GCState)
    (h1 : t.queries.takeWhile (tooOld (mintimeOf cfg now)) = [])
    (h2 : moveOverTimeMemory (mintimeOf cfg now) t.overTime = t.overTime) :
    runGC cfg now t =
      { state := t, removed := 0, lastGCrun := lastGCrunOf cfg now } := by
  have h3 : t.queries.dropWhile (tooOld (mintimeOf cfg now)) = t.queries := by
    have := List.takeWhile_append_dropWhile (tooOld (mintimeOf cfg now)) t.queries
    rw [h1] at this
    simpa using this
  simp only [runGC, h1, h2, h3, List.foldl_nil, List.length_nil]

/-- C3: a second GC pass at the same time, with no intervening appends,
evicts nothing and leaves the whole store (ledger, client, domain, histogram
and global counters) unchanged. -/
theorem gc_idempotent (cfg : GCConfig) (now : Int) (st : GCState) :
    (runGC cfg now (runGC cfg now st).state).removed = 0 ∧
    (runGC cfg now (runGC cfg now st).state).state = (runGC cfg now st).state := by
  have hq : (runGC cfg now st).state.queries =
      st.queries.dropWhile (tooOld (mintimeOf cfg now)) := rfl
  have hot : (runGC cfg now st).state.overTime =
      moveOverTimeMemory (mintimeOf cfg now)
        ((st.queries.takeWhile (tooOld (mintimeOf cfg now))).foldl
          (evictQuery cfg) st).overTime := rfl
  have h1 : (runGC cfg now st).state.queries.takeWhile
      (tooOld (mintimeOf cfg now)) = [] := by
    rw [hq]
    exact takeWhile_dropWhile_eq_nil _ _
  have h2 : moveOverTimeMemory (mintimeOf cfg now)
      (runGC cfg now st).state.overTime = (runGC cfg now st).state.overTime := by
    rw [hot]
    exact moveOverTimeMemory_idem _ _
  have hmain := runGC_no_work cfg now (runGC cfg now st).state h1 h2
  exact ⟨by rw [hmain], by rw [hmain]⟩

/-- A filter by a stronger test yields a sub-sequence of a filter by a
weaker test, in the same relative order. -/
theorem filter_sublist_filter_of_imp (p q : α → Bool)
    (h : ∀ a, p a = true → q a = true) :
    ∀ l : List α, (l.filter p).Sublist (l.filter q)
  | [] => List.Sublist.refl _
  | a :: l => by
    cases hp : p a with
    | true =>
      have hq := h a hp
      simp only [List.filter_cons, hp, hq, if_true, if_pos]
      exact List.Sublist.cons₂ a (filter_sublist_filter_of_imp p q h l)
    | false =>
      cases hq2 : q a with
      | true =>
        simp only [List.filter_cons, hp, hq2]
        exact List.Sublist.cons a (filter_sublist_filter_of_imp p q h l)
      | false =>
        simp only [List.filter_cons, hp, hq2]
        exact filter_sublist_filter_of_imp p q h l

/-- Alias-managed client used by the C7 counterexample: managed by alias 0,
not itself an alias client, with a nonzero per-bucket count. -/
def cAliasManaged : clientsData :=
  { ip := "192.168.0.2", name := "", count := 3, blockedcount := 0,
    overTime := [3], rate_limit := 0, rate_limited := false,
    aliasclient_id := 0, flags_aliasclient := false }

/-- C7 counterexample: with no exclusion list configured and a single
alias-managed client, the client directory lists that client while the
per-bucket series emits no column for it, so the directory does not contain
exactly the clients whose series columns are emitted. -/
theorem api_clients_directory_counterexample :
    ¬ directoryClientIDs none [cAliasManaged] =
        seriesClientIDs none [cAliasManaged] := by decide

/-- C7 amended: an alias-managed client indeed never contributes a series
column, and the series columns are a sub-sequence of the directory in the
same relative order; but the directory can list more clients than the
series, and coincides with the series columns exactly when every client it
retains is alias-free (which the skip pass only guarantees when an exclusion
list is configured). -/
theorem api_clients_alias_series_directory (exclude : Option (List String))
    (clients : List clientsData) :
    (∀ i ∈ seriesClientIDs exclude clients,
      ∀ c, clients[i]? = some c → c.aliasclient_id < 0) ∧
    (seriesClientIDs exclude clients).Sublist
      (directoryClientIDs exclude clients) ∧
    ((∀ i c, clients[i]? = some c →
        skipclient exclude clients i = false → c.aliasclient_id < 0) →
      seriesClientIDs exclude clients = directoryClientIDs exclude clients) := by
  refine ⟨?_, ?_, ?_⟩
  · intro i hi c hc
    have hpred := (List.mem_filter.mp hi).2
    rw [hc] at hpred
    have := (Bool.and_eq_true .. ▸ hpred).2
    simpa using this
  · apply filter_sublist_filter_of_imp
    intro i hp
    rcases Bool.and_eq_true .. ▸ hp with ⟨hskip, halias⟩
    rw [Bool.and_eq_true]
    refine ⟨hskip, ?_⟩
    cases hg : clients[i]? with
    | none => rw [hg] at halias; exact Bool.noConfusion halias
    | some c => simp [hg]
  · intro hall
    unfold seriesClientIDs directoryClientIDs
    apply List.filter_congr
    intro i hi
    cases hsk : skipclient exclude clients i with
    | true => simp
    | false =>
      have hlen : i < clients.length := List.mem_range.mp hi
      have hg : clients[i]? = some clients[i] := List.getElem?_eq_getElem hlen
      have := hall i clients[i] hg hsk
      simp [hg, this]

/-- Alias-free client used by the C7 witness. -/
def cPlain : clientsData :=
  { ip := "192.168.0.7", name := "pc", count := 1, blockedcount := 0,
    overTime := [1], rate_limit := 0, rate_limited := false,
    aliasclient_id := -1, flags_aliasclient := false }

/-- Witness for the amended C7: with a single alias-free client the series
columns and the directory coincide. -/
theorem api_clients_alias_series_directory_witness :
    seriesClientIDs none [cPlain] = directoryClientIDs none [cPlain] :=
  (api_clients_alias_series_directory none [cPlain]).2.2 (by
    intro i c hc hsk
    cases i with
    | zero =>
      simp at hc
      rw [← hc]
      decide
    | succ n => simp at hc)

end FTL
